import Mathlib

/-!
# Verification of the V4A-compatible patch parser and applier

Shallow embedding of `diff_match_patch/patch_applier.py`: the parser
(`parse_patch`, `_parse_block`, `_parse_hunk`) and the applier
(`apply_patch`, `_apply_update`, `_apply_hunk_to_lines`,
`_find_hunk_location`, `_apply_add`, `_apply_delete`).

Python strings are modelled as Lean `String`s, with the Python string
primitives used by the source (`str.strip`, `str.startswith`, slicing,
`str.split('\n')`, `'\n'.join`) re-implemented over the character list
`String.data` so that every definition is executable and provable.

The filesystem is modelled as a pure state `FS` (a finite association list
of file contents plus a set of directories).  The I/O layer is idealized:
reads fail exactly when the path has no file entry, and writes, directory
creation and removal of existing files always succeed.  The `try/except`
blocks of the source only convert OS-level failures into boolean results;
under the idealized I/O those exceptional paths (apart from the explicit
existence checks, which are modelled) do not arise.
-/

/-! ## Python string primitives -/

/-- The whitespace set of Python `str.strip()`. -/
def isPySpace (c : Char) : Bool :=
  c = ' ' || c = '\t' || c = '\n' || c = '\r' || c = '\x0b' || c = '\x0c'

/-- Python `s.strip()`: drop leading and trailing whitespace. -/
def pyStrip (s : String) : String :=
  ⟨((s.data.dropWhile isPySpace).reverse.dropWhile isPySpace).reverse⟩

/-- Python `s.startswith(p)`. -/
def pyStartsWith (s p : String) : Bool :=
  p.data.isPrefixOf s.data

/-- Python slicing `s[n:]`. -/
def pyDrop (s : String) (n : Nat) : String :=
  ⟨s.data.drop n⟩

/-- Python `s.split('\n')` over the character list: splitting an empty
string gives one empty piece, and each `'\n'` separates two pieces. -/
def splitNlChars : List Char → List (List Char)
  | [] => [[]]
  | c :: cs =>
    match splitNlChars cs with
    | [] => [[]]
    | l :: ls => if c = '\n' then [] :: l :: ls else (c :: l) :: ls

/-- Python `'\n'.join` over character lists. -/
def joinNlChars : List (List Char) → List Char
  | [] => []
  | [l] => l
  | l :: l' :: ls => l ++ '\n' :: joinNlChars (l' :: ls)

/-- Python `content.split('\n')`. -/
def pySplitLines (s : String) : List String :=
  (splitNlChars s.data).map (fun l => ⟨l⟩)

/-- Python `'\n'.join(lines)`. -/
def pyJoinLines (ls : List String) : String :=
  ⟨joinNlChars (ls.map String.data)⟩

theorem splitNlChars_ne_nil (cs : List Char) : splitNlChars cs ≠ [] := by
  cases cs with
  | nil => simp [splitNlChars]
  | cons c cs =>
    simp only [splitNlChars]
    cases splitNlChars cs with
    | nil => simp
    | cons l ls =>
      by_cases h : c = '\n' <;> simp [h]

theorem joinNlChars_splitNlChars (cs : List Char) :
    joinNlChars (splitNlChars cs) = cs := by
  induction cs with
  | nil => rfl
  | cons c cs ih =>
    simp only [splitNlChars]
    cases hs : splitNlChars cs with
    | nil => exact absurd hs (splitNlChars_ne_nil cs)
    | cons l ls =>
      rw [hs] at ih
      by_cases h : c = '\n'
      · subst h
        simp only [if_pos rfl, joinNlChars]
        simpa using congrArg (List.cons '\x0a') ih
      · simp only [if_neg h]
        cases ls with
        | nil => simpa [joinNlChars] using congrArg (c :: ·) ih
        | cons l' ls' => simpa [joinNlChars] using congrArg (c :: ·) ih

/-- Splitting then joining with `'\n'` is the identity on strings. -/
theorem pyJoinLines_pySplitLines (s : String) :
    pyJoinLines (pySplitLines s) = s := by
  unfold pyJoinLines pySplitLines
  rw [List.map_map]
  have : (String.data ∘ fun l => (⟨l⟩ : String)) = id := rfl
  rw [this, List.map_id, joinNlChars_splitNlChars]

/-! ## Data model

`Hunk` and `PatchBlock` embed the dictionaries built by `_parse_hunk` and
`_parse_block`.  A hunk line is a `(tag, text)` pair whose tag is the
literal prefix character `' '`, `'-'` or `'+'`. -/

structure Hunk where
  header : String
  lines : List (Char × String)
deriving DecidableEq

structure PatchBlock where
  action : String
  file_path : String
  hunks : List Hunk
  content : List String
  end_index : Nat
deriving DecidableEq

/-! ## Parser

All parser loops advance an index `i` through the list of lines.  Every
loop takes a structural fuel argument so that each definition reduces in
the kernel; `lines.length + 1` units of fuel (what every call site
passes) suffice to simulate every terminating run of the corresponding
Python loop, since each such iteration moves `i` forward by at least
one while `i` stays within the line count. -/

/-- The scan at the top of `_parse_block` that looks for the first action
header at or after index `i`; returns the action keyword, the file path
and the index of the action line.  Mirrors the Python `while` loop:
`*** End Patch` (or running out of lines) yields `None`. -/
def find_action (lines : List String) : Nat → Nat → Option (String × String × Nat)
  | 0, _ => none
  | fuel + 1, i =>
    if i < lines.length then
      let line := pyStrip (lines.getD i "")
      if pyStartsWith line "*** Update File:" then
        some ("Update", pyStrip (pyDrop line "*** Update File:".length), i)
      else if pyStartsWith line "*** Add File:" then
        some ("Add", pyStrip (pyDrop line "*** Add File:".length), i)
      else if pyStartsWith line "*** Delete File:" then
        some ("Delete", pyStrip (pyDrop line "*** Delete File:".length), i)
      else if line = "*** End Patch" then none
      else find_action lines fuel (i + 1)
    else none

/-- The Delete branch of `_parse_block`: skip forward to the first
`*** End Patch` line (or to `lines.length`). -/
def skip_to_end (lines : List String) : Nat → Nat → Nat
  | 0, i => i
  | fuel + 1, i =>
    if i < lines.length then
      if pyStrip (lines.getD i "") = "*** End Patch" then i
      else skip_to_end lines fuel (i + 1)
    else i

/-- The Add branch of `_parse_block`: collect the `'+'`-prefixed lines
(with the marker stripped) until `*** End Patch` or end of input; returns
the content together with the final index. -/
def add_loop (lines : List String) : Nat → Nat → List String × Nat
  | 0, i => ([], i)
  | fuel + 1, i =>
    if i < lines.length then
      let line := lines.getD i ""
      if pyStrip line = "*** End Patch" then ([], i)
      else
        let r := add_loop lines fuel (i + 1)
        if pyStartsWith line "+" then (pyDrop line 1 :: r.1, r.2) else r
    else ([], i)

/-- The body loop of `_parse_hunk`: starting just after the `@@` line,
collect `(tag, text)` pairs.  Returns the pairs and the value of `i` at
loop exit (including the `i -= 1` adjustment of the next-hunk branch). -/
def parse_hunk_loop (lines : List String) : Nat → Nat → List (Char × String) × Nat
  | 0, i => ([], i)
  | fuel + 1, i =>
    if i < lines.length then
      let line := lines.getD i ""
      if pyStrip line = "*** End Patch" then ([], i)
      else if pyStartsWith line "@@" then ([], i - 1)
      else if pyStartsWith line " " then
        let r := parse_hunk_loop lines fuel (i + 1)
        ((' ', pyDrop line 1) :: r.1, r.2)
      else if pyStartsWith line "-" then
        let r := parse_hunk_loop lines fuel (i + 1)
        (('-', pyDrop line 1) :: r.1, r.2)
      else if pyStartsWith line "+" then
        let r := parse_hunk_loop lines fuel (i + 1)
        (('+', pyDrop line 1) :: r.1, r.2)
      else ([], i)
    else ([], i)

/-- `_parse_hunk`: returns the hunk and its `end_index`.  The Python
`end_index` is `i - 1` over `int`; over `Nat` the subtraction truncates at
zero, which differs only for a hunk starting at line 0, a position no
block produced by `parse_patch` can reach (hunks sit behind a
`*** Begin Patch` line and an action line). -/
def parse_hunk (lines : List String) (start_idx : Nat) : Option (Hunk × Nat) :=
  if pyStartsWith (lines.getD start_idx "") "@@" then
    let r := parse_hunk_loop lines (lines.length + 1) (start_idx + 1)
    some ({ header := pyStrip (pyDrop (lines.getD start_idx "") 2), lines := r.1 }, r.2 - 1)
  else none

/-- The Update branch of `_parse_block`: collect hunks until
`*** End Patch` or end of input.  Fueled because the Python loop resumes
at `end_index + 1`, which on reachable input makes no progress: an empty
hunk directly followed by another `@@` line gives `end_index = i - 1`, so
the loop resumes at the very index it is at and re-parses the same empty
hunk forever — the Python loop diverges.  There this function instead
returns the hunks accumulated when the fuel runs out (one copy of the
empty hunk per unit of fuel), a model artifact with no Python
counterpart; `parser_stall_eval` below exhibits the stall and the
resulting fuel non-stabilization at a concrete patch text.  On every
input where the Python loop terminates, the call-site fuel
`lines.length + 1` makes this function agree with it exactly. -/
def update_loop (lines : List String) (fuel : Nat) (i : Nat) : List Hunk × Nat :=
  match fuel with
  | 0 => ([], i)
  | fuel + 1 =>
    if i < lines.length then
      let line := lines.getD i ""
      if pyStrip line = "*** End Patch" then ([], i)
      else if pyStartsWith line "@@" then
        match parse_hunk lines i with
        | some (hk, e) =>
          let r := update_loop lines fuel (e + 1)
          (hk :: r.1, r.2)
        | none => update_loop lines fuel (i + 1)
      else update_loop lines fuel (i + 1)
    else ([], i)

/-- `_parse_block`. -/
def parse_block (lines : List String) (start_idx : Nat) : Option PatchBlock :=
  match find_action lines (lines.length + 1) start_idx with
  | none => none
  | some (action, file_path, j) =>
    if action = "Delete" then
      some { action := action, file_path := file_path, hunks := [], content := [],
             end_index := skip_to_end lines (lines.length + 1) (j + 1) }
    else if action = "Add" then
      let r := add_loop lines (lines.length + 1) (j + 1)
      some { action := action, file_path := file_path, hunks := [], content := r.1,
             end_index := r.2 }
    else
      let r := update_loop lines (lines.length + 1) (j + 1)
      some { action := action, file_path := file_path, hunks := r.1, content := [],
             end_index := r.2 }

/-- The block loop of `parse_patch` (fueled, see `update_loop`). -/
def parse_loop (lines : List String) (fuel : Nat) (i : Nat) : List PatchBlock :=
  match fuel with
  | 0 => []
  | fuel + 1 =>
    if i < lines.length then
      if pyStrip (lines.getD i "") = "*** Begin Patch" then
        match parse_block lines (i + 1) with
        | some b => b :: parse_loop lines fuel (b.end_index + 1)
        | none => parse_loop lines fuel (i + 2)
      else parse_loop lines fuel (i + 1)
    else []

/-- `parse_patch`. -/
def parse_patch (patch_text : String) : List PatchBlock :=
  if pyStrip patch_text = "" then []
  else
    let lines := pySplitLines patch_text
    parse_loop lines (lines.length + 1) 0

/-! ## Filesystem model

A pure state standing for the filesystem subtree the applier touches:
an association list from paths to file contents, plus the set of
directories.  See the header comment for the I/O idealization. -/

structure FS where
  files : List (String × String)
  dirs : List String
deriving DecidableEq

/-- Read a file (`open(path).read()`); `none` when the path has no file. -/
def FS.read (fs : FS) (p : String) : Option String :=
  (fs.files.find? (fun e => e.1 = p)).map (·.2)

/-- Overwrite/create a file (`open(path, 'w').write(c)`). -/
def FS.write (fs : FS) (p c : String) : FS :=
  { fs with files := (p, c) :: fs.files.filter (fun e => ¬ e.1 = p) }

/-- `os.path.exists`: true for files and for directories. -/
def FS.path_exists (fs : FS) (p : String) : Bool :=
  fs.files.any (fun e => e.1 = p) || fs.dirs.contains p

/-- `os.path.dirname` (posix): everything before the last `/`; the head is
right-stripped of `/` unless it consists solely of slashes. -/
def posixDirname (p : String) : String :=
  let head := (p.data.reverse.dropWhile (fun c => ¬ c = '/')).reverse
  if head.isEmpty || head.all (fun c => c = '/') then ⟨head⟩
  else ⟨(head.reverse.dropWhile (fun c => c = '/')).reverse⟩

/-- The chain of directories `os.makedirs` guarantees to exist afterwards:
the directory itself and its ancestors by `posixDirname`.  Fueled since
`posixDirname` is only strictly shortening on non-degenerate paths;
`d.length + 1` units of fuel cover the whole chain. -/
def dir_chain (fuel : Nat) (d : String) : List String :=
  match fuel with
  | 0 => []
  | fuel + 1 => if d = "" then [] else d :: dir_chain fuel (posixDirname d)

/-- `os.makedirs(d)`: ensure `d` and all its ancestors exist. -/
def FS.makedirs (fs : FS) (d : String) : FS :=
  { fs with dirs := dir_chain (d.length + 1) d ++ fs.dirs }

/-- `os.path.join(base, p)` for one relative component (posix). -/
def os_join (base p : String) : String :=
  if pyStartsWith p "/" then p
  else if base = "" || base.data.getLast? = some '/' then base ++ p
  else base ++ "/" ++ p

/-! ## Applier -/

/-- The header scan of `_apply_hunk_to_lines`: index of the first line
whose stripped text equals the stripped header (`-1` becomes `none`). -/
def find_header_loop (header : String) : List String → Nat → Option Nat
  | [], _ => none
  | l :: ls, i =>
    if pyStrip l = pyStrip header then some i else find_header_loop header ls (i + 1)

def find_header_idx (lines : List String) (header : String) : Option Nat :=
  find_header_loop header lines 0

/-- The pre-image `_find_hunk_location` matches against: the leading run
of `' '`- and `'-'`-tagged texts (stopping at the first other tag). -/
def context_lines_of (hunk_lines : List (Char × String)) : List String :=
  (hunk_lines.takeWhile (fun tl => tl.1 = ' ' || tl.1 = '-')).map (·.2)

/-- `_find_hunk_location`: the first position whose contiguous run of
lines strip-matches the pre-image.  The Python loop runs `i` over
`range(len(lines) - len(ctx) + 1)`; over `Nat` the bound clamps at zero,
adding at most one candidate whose run is too short to match, so the
result is unchanged. -/
def find_hunk_location (lines : List String) (hunk_lines : List (Char × String)) : Option Nat :=
  let ctx := context_lines_of hunk_lines
  if ctx.isEmpty then none
  else
    (List.range (lines.length - ctx.length + 1)).find?
      (fun i => ((lines.drop i).take ctx.length).map pyStrip = ctx.map pyStrip)

/-- The partition loop of `_apply_hunk_to_lines`: split the tagged lines
into `(context_before, removals, additions, context_after)`, a `' '` line
going to `context_after` exactly when a `'-'`/`'+'` line was seen before
it (the `in_changes` flag).  Tags other than the three prefixes are
skipped, as in the Python `if/elif` chain. -/
def partition_loop (hunk_lines : List (Char × String)) (in_changes : Bool) :
    List String × List String × List String × List String :=
  match hunk_lines with
  | [] => ([], [], [], [])
  | (tag, line) :: rest =>
    if tag = ' ' then
      let r := partition_loop rest in_changes
      if in_changes then (r.1, r.2.1, r.2.2.1, line :: r.2.2.2)
      else (line :: r.1, r.2.1, r.2.2.1, r.2.2.2)
    else if tag = '-' then
      let r := partition_loop rest true
      (r.1, line :: r.2.1, r.2.2.1, r.2.2.2)
    else if tag = '+' then
      let r := partition_loop rest true
      (r.1, r.2.1, line :: r.2.2.1, r.2.2.2)
    else partition_loop rest in_changes

def partition_hunk (hunk_lines : List (Char × String)) :
    List String × List String × List String × List String :=
  partition_loop hunk_lines false

/-- `_apply_hunk_to_lines`.  The Python start index
`match_idx - len(context_before) + 1`, clamped to zero if negative, is the
`Nat` expression `match_idx + 1 - context_before.length`.  The Python
bindings `expected_lines`/`actual_lines` under the comment
`# Verify context matches` are dead code (never compared) and are omitted
here; the slice arithmetic matches Python slicing via `take`/`drop`. -/
def apply_hunk_to_lines (lines : List String) (hunk : Hunk) : Option (List String) :=
  let match_idx? :=
    match find_header_idx lines hunk.header with
    | some i => some i
    | none => find_hunk_location lines hunk.lines
  match match_idx? with
  | none => none
  | some match_idx =>
    let parts := partition_hunk hunk.lines
    let context_before := parts.1
    let removals := parts.2.1
    let additions := parts.2.2.1
    let context_after := parts.2.2.2
    let start_idx := match_idx + 1 - context_before.length
    some (lines.take start_idx ++ context_before ++ additions ++ context_after ++
      lines.drop (start_idx + context_before.length + removals.length + context_after.length))

/-- The hunk loop of `_apply_update`: fold the hunks (already put in
application order by the caller) over the line buffer, aborting on the
first failure. -/
def apply_hunks (lines : List String) : List Hunk → Option (List String)
  | [] => some lines
  | h :: rest =>
    match apply_hunk_to_lines lines h with
    | none => none
    | some ls => apply_hunks ls rest

/-- `_apply_update`: missing file fails; otherwise split the content into
lines, apply the hunks in reverse order, and on success write the joined
result back (one write).  The `os.path.exists` guard and the read collapse
into one lookup: a path that exists but is not a readable file makes the
Python `open` raise, which the `except` turns into the same `False`. -/
def apply_update (fs : FS) (file_path : String) (hunks : List Hunk) : FS × Bool :=
  match fs.read file_path with
  | none => (fs, false)
  | some content =>
    match apply_hunks (pySplitLines content) hunks.reverse with
    | none => (fs, false)
    | some ls => (fs.write file_path (pyJoinLines ls), true)

/-- `_apply_add`: make the missing directories, then write the joined
content lines. -/
def apply_add (fs : FS) (file_path : String) (content : List String) : FS × Bool :=
  let dir_path := posixDirname file_path
  let fs1 := if dir_path ≠ "" ∧ fs.path_exists dir_path = false then fs.makedirs dir_path else fs
  (fs1.write file_path (pyJoinLines content), true)

/-- `_apply_delete`: removing an existing file succeeds, a missing path
fails; a path that exists only as a directory makes `os.remove` raise,
which the `except` turns into `False`. -/
def apply_delete (fs : FS) (file_path : String) : FS × Bool :=
  if fs.path_exists file_path then
    if fs.files.any (fun e => e.1 = file_path) then
      ({ fs with files := fs.files.filter (fun e => ¬ e.1 = file_path) }, true)
    else (fs, false)
  else (fs, false)

/-- The per-block dispatch inside `apply_patch`'s loop, producing the
`(file_path, success, message)` triple recorded for the block. -/
def apply_block (fs : FS) (base_dir : String) (b : PatchBlock) : FS × (String × Bool × String) :=
  let file_path := os_join base_dir b.file_path
  if b.action = "Update" then
    let r := apply_update fs file_path b.hunks
    (r.1, (b.file_path, r.2, if r.2 then "Updated successfully" else "Failed to apply update"))
  else if b.action = "Add" then
    let r := apply_add fs file_path b.content
    (r.1, (b.file_path, r.2, if r.2 then "Added successfully" else "Failed to add file"))
  else if b.action = "Delete" then
    let r := apply_delete fs file_path
    (r.1, (b.file_path, r.2, if r.2 then "Deleted successfully" else "Failed to delete file"))
  else (fs, (b.file_path, false, "Unknown action: " ++ b.action))

/-- The block loop of `apply_patch`: every block is attempted, in order,
whatever the earlier outcomes. -/
def apply_blocks (fs : FS) (base_dir : String) : List PatchBlock → FS × List (String × Bool × String)
  | [] => (fs, [])
  | b :: bs =>
    let s := apply_block fs base_dir b
    let t := apply_blocks s.1 base_dir bs
    (t.1, s.2 :: t.2)

/-- `apply_patch`. -/
def apply_patch (fs : FS) (patch_text : String) (base_dir : String) :
    FS × List (String × Bool × String) :=
  apply_blocks fs base_dir (parse_patch patch_text)

/-! ## Helper lemmas -/

theorem FS.read_write (fs : FS) (p c : String) : (fs.write p c).read p = some c := by
  simp [FS.read, FS.write]

/-- C4: for a hunk anchored by an exact (stripped) header-line match at
index `i`, the replaced region starts at `i − len(context_before) + 1`
(clamped to zero, i.e. `i + 1 - context_before.length` over `Nat`), the
region of length `len(context_before) + len(removed) + len(context_after)`
is replaced by `context_before ++ added ++ context_after`, and all lines
outside the region are preserved verbatim. -/
theorem header_anchor_position (lines : List String) (hunk : Hunk) (i : Nat)
    (hfind : find_header_idx lines hunk.header = some i) :
    apply_hunk_to_lines lines hunk =
      some (lines.take (i + 1 - (partition_hunk hunk.lines).1.length) ++
        (partition_hunk hunk.lines).1 ++ (partition_hunk hunk.lines).2.2.1 ++
        (partition_hunk hunk.lines).2.2.2 ++
        lines.drop (i + 1 - (partition_hunk hunk.lines).1.length +
          (partition_hunk hunk.lines).1.length + (partition_hunk hunk.lines).2.1.length +
          (partition_hunk hunk.lines).2.2.2.length)) := by
  simp [apply_hunk_to_lines, hfind]

/-- Witness for C4: the spec's own example — file
`["a","b","c","old","d","e","f"]`, header `"a"`, context before
`[a,b,c]`, removed `[old]`, added `[new]`, context after `[d,e,f]` —
yields `["a","b","c","new","d","e","f"]`. -/
theorem header_anchor_position_witness :
    apply_hunk_to_lines ["a", "b", "c", "old", "d", "e", "f"]
        { header := "a",
          lines := [(' ', "a"), (' ', "b"), (' ', "c"), ('-', "old"), ('+', "new"),
                    (' ', "d"), (' ', "e"), (' ', "f")] } =
      some ["a", "b", "c", "new", "d", "e", "f"] :=
  (header_anchor_position _ _ 0 (by decide)).trans (by decide)

/-- C5: exact-header anchoring performs no pre-image verification — even
when the file lines in the computed region differ from
`context_before ++ removed ++ context_after`, the replacement is carried
out and the hunk application succeeds. -/
theorem header_anchor_skips_verification (lines : List String) (hunk : Hunk) (i : Nat)
    (hfind : find_header_idx lines hunk.header = some i)
    (_hmismatch :
      (lines.drop (i + 1 - (partition_hunk hunk.lines).1.length)).take
          ((partition_hunk hunk.lines).1.length + (partition_hunk hunk.lines).2.1.length +
            (partition_hunk hunk.lines).2.2.2.length) ≠
        (partition_hunk hunk.lines).1 ++ (partition_hunk hunk.lines).2.1 ++
          (partition_hunk hunk.lines).2.2.2) :
    apply_hunk_to_lines lines hunk =
      some (lines.take (i + 1 - (partition_hunk hunk.lines).1.length) ++
        (partition_hunk hunk.lines).1 ++ (partition_hunk hunk.lines).2.2.1 ++
        (partition_hunk hunk.lines).2.2.2 ++
        lines.drop (i + 1 - (partition_hunk hunk.lines).1.length +
          (partition_hunk hunk.lines).1.length + (partition_hunk hunk.lines).2.1.length +
          (partition_hunk hunk.lines).2.2.2.length)) := by
  simp [apply_hunk_to_lines, hfind]

/-- Witness for C5: file `["h","X","Y"]` and a hunk expecting the
pre-image `["h","old","c"]` under header `"h"`; the region mismatches yet
the hunk succeeds and rewrites the region to `["h","c"]`. -/
theorem header_anchor_skips_verification_witness :
    apply_hunk_to_lines ["h", "X", "Y"]
        { header := "h", lines := [(' ', "h"), ('-', "old"), (' ', "c")] } =
      some ["h", "c"] :=
  (header_anchor_skips_verification ["h", "X", "Y"]
      { header := "h", lines := [(' ', "h"), ('-', "old"), (' ', "c")] } 0
      (by decide) (by decide)).trans (by decide)

/-- C1 (code bug): with no header match, `_find_hunk_location` finds the
first run matching the pre-image at index 1 of `["x","a","b","old","c"]`,
but `_apply_hunk_to_lines` then applies the header-style offset
`match_idx − len(context_before) + 1` to that run start as well, anchoring
the replacement at index 0 instead of 1: the result is
`["a","b","new","c","c"]` (line `"x"` destroyed, `"c"` duplicated) where
the claim requires `["x","a","b","new","c"]`. -/
theorem fallback_misanchor_eval :
    find_hunk_location ["x", "a", "b", "old", "c"]
        [(' ', "a"), (' ', "b"), ('-', "old"), ('+', "new"), (' ', "c")] = some 1 ∧
    apply_hunk_to_lines ["x", "a", "b", "old", "c"]
        { header := "zzz",
          lines := [(' ', "a"), (' ', "b"), ('-', "old"), ('+', "new"), (' ', "c")] } =
      some ["a", "b", "new", "c", "c"] ∧
    some ["a", "b", "new", "c", "c"] ≠ some ["x", "a", "b", "new", "c"] := by
  refine ⟨by decide, by decide, by decide⟩

/-- C2: per-file atomicity of `_apply_update` — once the file content is
read, a failing hunk pass leaves the filesystem untouched with a `false`
outcome, and a fully successful pass performs exactly the single
write-back of the joined result. -/
theorem apply_update_per_file_atomic (fs : FS) (p : String) (hunks : List Hunk)
    (content : String) (hread : fs.read p = some content) :
    (apply_hunks (pySplitLines content) hunks.reverse = none →
      apply_update fs p hunks = (fs, false)) ∧
    (∀ ls, apply_hunks (pySplitLines content) hunks.reverse = some ls →
      apply_update fs p hunks = (fs.write p (pyJoinLines ls), true)) := by
  constructor
  · intro h
    simp [apply_update, hread, h]
  · intro ls h
    simp [apply_update, hread, h]

/-- Witness for C2: a hunk that anchors nowhere leaves the one-file
filesystem unchanged and reports failure. -/
theorem apply_update_per_file_atomic_witness :
    apply_update { files := [("f", "a")], dirs := [] } "f"
        [{ header := "q", lines := [('+', "z")] }] =
      ({ files := [("f", "a")], dirs := [] }, false) :=
  (apply_update_per_file_atomic { files := [("f", "a")], dirs := [] } "f"
      [{ header := "q", lines := [('+', "z")] }] "a" (by decide)).1 (by decide)

/-- C3: hunks are applied in reverse document order (for two hunks, the
later one first), and concretely a file with two disjoint edit regions
receives both edits correctly from two hunks listed top-to-bottom, each
anchored by an exact header match. -/
theorem hunks_reverse_order_application :
    (∀ (lines : List String) (h1 h2 : Hunk),
      apply_hunks lines [h1, h2].reverse =
        (apply_hunk_to_lines lines h2).bind (fun ls => apply_hunk_to_lines ls h1)) ∧
    apply_update { files := [("f", "a\nold1\nb\nc\nold2\nd")], dirs := [] } "f"
        [{ header := "a", lines := [(' ', "a"), ('-', "old1"), ('+', "new1"), (' ', "b")] },
         { header := "c", lines := [(' ', "c"), ('-', "old2"), ('+', "new2"), (' ', "d")] }] =
      ({ files := [("f", "a\nnew1\nb\nc\nnew2\nd")], dirs := [] }, true) := by
  constructor
  · intro lines h1 h2
    cases hx : apply_hunk_to_lines lines h2 with
    | none => simp [apply_hunks, hx]
    | some ls =>
      cases hy : apply_hunk_to_lines ls h1 with
      | none => simp [apply_hunks, hx, hy]
      | some ls' => simp [apply_hunks, hx, hy]
  · decide

theorem apply_block_path (fs : FS) (base : String) (b : PatchBlock) :
    (apply_block fs base b).2.1 = b.file_path := by
  unfold apply_block
  split_ifs <;> rfl

theorem apply_blocks_paths (base : String) (blocks : List PatchBlock) :
    ∀ fs, (apply_blocks fs base blocks).2.map (fun r => r.1) =
      blocks.map (fun b => b.file_path) := by
  induction blocks with
  | nil => intro fs; rfl
  | cons b bs ih =>
    intro fs
    simp [apply_blocks, apply_block_path, ih]

/-- Helper (per-block outcome property of the total model): `apply_patch`
produces exactly one `(file_path, success, message)` triple per parsed
block, in document order (the outcome paths are the parsed blocks' paths,
in order), and the block loop attempts every block: the outcomes after a
head block are computed from the remaining blocks whatever the head
block's outcome was.  Caveat: this is a statement about the fueled model,
which agrees with Python only on patch texts where Python's parse loops
terminate; `parser_stall_eval` below exhibits a text where the Python
parser diverges and so never returns any outcome list at all. -/
theorem apply_patch_per_block_results (fs : FS) (patch_text base_dir : String) :
    ((apply_patch fs patch_text base_dir).2.map (fun r => r.1) =
      (parse_patch patch_text).map (fun b => b.file_path)) ∧
    (∀ (fs' : FS) (b : PatchBlock) (bs : List PatchBlock),
      apply_blocks fs' base_dir (b :: bs) =
        ((apply_blocks (apply_block fs' base_dir b).1 base_dir bs).1,
         (apply_block fs' base_dir b).2 ::
           (apply_blocks (apply_block fs' base_dir b).1 base_dir bs).2)) := by
  constructor
  · exact apply_blocks_paths base_dir (parse_patch patch_text) fs
  · intro fs' b bs
    rfl

/-- C7: an Add writes exactly `join(L, "\n")` (no trailing newline) so the
read-back is that string, reports success, silently overwrites any
existing file (the filesystem is universally quantified, so `p` may
already be bound), and when the target's directory is missing it creates
the whole chain of intermediate directories. -/
theorem apply_add_roundtrip (fs : FS) (p : String) (L : List String) :
    (apply_add fs p L).2 = true ∧
    (apply_add fs p L).1.read p = some (pyJoinLines L) ∧
    (posixDirname p ≠ "" → fs.path_exists (posixDirname p) = false →
      ∀ d ∈ dir_chain ((posixDirname p).length + 1) (posixDirname p),
        d ∈ (apply_add fs p L).1.dirs) := by
  refine ⟨rfl, FS.read_write _ p (pyJoinLines L), ?_⟩
  intro h1 h2 d hd
  show d ∈ (FS.write _ p (pyJoinLines L)).dirs
  simp only [FS.write]
  show d ∈ (if posixDirname p ≠ "" ∧ fs.path_exists (posixDirname p) = false
      then fs.makedirs (posixDirname p) else fs).dirs
  rw [if_pos ⟨h1, h2⟩]
  simp only [FS.makedirs]
  exact List.mem_append_left _ hd

/-- Witness for C7: adding `["x","y"]` at `"a/b.txt"` over an existing
file reads back as `"x\ny"` and the missing directory `"a"` is created. -/
theorem apply_add_roundtrip_witness :
    (apply_add { files := [("a/b.txt", "old")], dirs := [] } "a/b.txt" ["x", "y"]).1.read
        "a/b.txt" = some "x\ny" ∧
    "a" ∈ (apply_add { files := [("a/b.txt", "old")], dirs := [] } "a/b.txt" ["x", "y"]).1.dirs :=
  ⟨((apply_add_roundtrip { files := [("a/b.txt", "old")], dirs := [] } "a/b.txt"
      ["x", "y"]).2.1).trans (by decide),
   (apply_add_roundtrip { files := [("a/b.txt", "old")], dirs := [] } "a/b.txt"
      ["x", "y"]).2.2 (by decide) (by decide) "a" (by decide)⟩

/-- C9: an Update with an empty hunks list succeeds and rewrites exactly
the original content — splitting on `'\n'` and rejoining is the identity —
so the read-back is byte-identical. -/
theorem update_empty_hunks_identity (fs : FS) (p content : String)
    (hread : fs.read p = some content) :
    apply_update fs p [] = (fs.write p content, true) ∧
    (apply_update fs p []).1.read p = some content := by
  have h : apply_update fs p [] = (fs.write p content, true) := by
    simp [apply_update, hread, apply_hunks, pyJoinLines_pySplitLines]
  exact ⟨h, by rw [h]; exact FS.read_write fs p content⟩

/-- Witness for C9. -/
theorem update_empty_hunks_identity_witness :
    apply_update { files := [("f", "a\nb\n")], dirs := [] } "f" [] =
      (FS.write { files := [("f", "a\nb\n")], dirs := [] } "f" "a\nb\n", true) :=
  (update_empty_hunks_identity { files := [("f", "a\nb\n")], dirs := [] } "f" "a\nb\n"
      (by decide)).1

theorem find_action_keyword (lines : List String) :
    ∀ (fuel i : Nat) (a p : String) (j : Nat),
      find_action lines fuel i = some (a, p, j) →
        a = "Update" ∨ a = "Add" ∨ a = "Delete" := by
  intro fuel
  induction fuel with
  | zero =>
    intro i a p j heq
    exact absurd heq (by simp [find_action])
  | succ k ih =>
    intro i a p j heq
    rw [find_action] at heq
    by_cases hx : i < lines.length
    · rw [if_pos hx] at heq
      simp only [Option.some.injEq] at heq
      split_ifs at heq
      all_goals
        first
        | exact ih (i + 1) a p j heq
        | (simp only [Option.some.injEq, Prod.mk.injEq] at heq
           first
           | exact Or.inl heq.1.symm
           | exact Or.inr (Or.inl heq.1.symm)
           | exact Or.inr (Or.inr heq.1.symm))
    · rw [if_neg hx] at heq
      exact absurd heq (by simp)

theorem parse_block_shape (lines : List String) (s : Nat) (b : PatchBlock)
    (h : parse_block lines s = some b) :
    (b.action = "Update" ∨ b.action = "Add" ∨ b.action = "Delete") ∧
    (b.hunks ≠ [] → b.action = "Update") ∧
    (b.content ≠ [] → b.action = "Add") := by
  cases hf : find_action lines (lines.length + 1) s with
  | none => simp [parse_block, hf] at h
  | some t =>
    obtain ⟨a, p, j⟩ := t
    simp only [parse_block, hf] at h
    have ha : a = "Update" ∨ a = "Add" ∨ a = "Delete" :=
      find_action_keyword lines (lines.length + 1) s a p j hf
    by_cases h1 : a = "Delete"
    · rw [if_pos h1] at h
      simp only [Option.some.injEq] at h
      subst h
      exact ⟨Or.inr (Or.inr h1), by intro hc; simp at hc, by intro hc; simp at hc⟩
    · rw [if_neg h1] at h
      by_cases h2 : a = "Add"
      · rw [if_pos h2] at h
        simp only [Option.some.injEq] at h
        subst h
        exact ⟨Or.inr (Or.inl h2), by intro hc; simp at hc, fun _ => h2⟩
      · rw [if_neg h2] at h
        simp only [Option.some.injEq] at h
        subst h
        have hu : a = "Update" := by
          rcases ha with hu | hA | hD
          · exact hu
          · exact absurd hA h2
          · exact absurd hD h1
        exact ⟨Or.inl hu, fun _ => hu, by intro hc; simp at hc⟩

theorem parse_loop_shape (lines : List String) :
    ∀ (fuel i : Nat) (b : PatchBlock), b ∈ parse_loop lines fuel i →
      (b.action = "Update" ∨ b.action = "Add" ∨ b.action = "Delete") ∧
      (b.hunks ≠ [] → b.action = "Update") ∧
      (b.content ≠ [] → b.action = "Add") := by
  intro fuel
  induction fuel with
  | zero => intro i b hb; simp [parse_loop] at hb
  | succ n ih =>
    intro i b hb
    rw [parse_loop] at hb
    by_cases hx : i < lines.length
    · rw [if_pos hx] at hb
      by_cases hbp : pyStrip (lines.getD i "") = "*** Begin Patch"
      · rw [if_pos hbp] at hb
        cases hpb : parse_block lines (i + 1) with
        | none => rw [hpb] at hb; exact ih (i + 2) b hb
        | some b' =>
          rw [hpb] at hb
          rcases List.mem_cons.mp hb with rfl | hmem
          · exact parse_block_shape lines (i + 1) b hpb
          · exact ih (b'.end_index + 1) b hmem
      · rw [if_neg hbp] at hb
        exact ih (i + 1) b hb
    · rw [if_neg hx] at hb
      exact absurd hb (by simp)

/-- C8: every block returned by the parser has the shape invariant — its
action is `Update`, `Add` or `Delete`; a non-empty hunks list occurs only
under `Update`; a non-empty content list occurs only under `Add`. -/
theorem parsed_block_shape_invariant (patch_text : String) (b : PatchBlock)
    (hb : b ∈ parse_patch patch_text) :
    (b.action = "Update" ∨ b.action = "Add" ∨ b.action = "Delete") ∧
    (b.hunks ≠ [] → b.action = "Update") ∧
    (b.content ≠ [] → b.action = "Add") := by
  unfold parse_patch at hb
  by_cases he : pyStrip patch_text = ""
  · rw [if_pos he] at hb
    exact absurd hb (by simp)
  · rw [if_neg he] at hb
    exact parse_loop_shape (pySplitLines patch_text) _ 0 b hb

/-- Witness for C8: a parsed Update block from a small concrete patch. -/
theorem parsed_block_shape_invariant_witness :
    ({ action := "Update", file_path := "f", hunks := [{ header := "h", lines := [('-', "x"), ('+', "y")] }], content := [], end_index := 5 } : PatchBlock).action = "Update" ∨
    ({ action := "Update", file_path := "f", hunks := [{ header := "h", lines := [('-', "x"), ('+', "y")] }], content := [], end_index := 5 } : PatchBlock).action = "Add" ∨
    ({ action := "Update", file_path := "f", hunks := [{ header := "h", lines := [('-', "x"), ('+', "y")] }], content := [], end_index := 5 } : PatchBlock).action = "Delete" :=
  (parsed_block_shape_invariant
    "*** Begin Patch\n*** Update File: f\n@@ h\n-x\n+y\n*** End Patch"
    { action := "Update", file_path := "f",
      hunks := [{ header := "h", lines := [('-', "x"), ('+', "y")] }], content := [],
      end_index := 5 } (by decide)).1

theorem find_header_loop_eq_none (header : String) :
    ∀ (ls : List String) (i : Nat), (∀ l ∈ ls, pyStrip l ≠ pyStrip header) →
      find_header_loop header ls i = none := by
  intro ls
  induction ls with
  | nil => intro i _; rfl
  | cons l ls ih =>
    intro i h
    rw [find_header_loop, if_neg (h l (List.mem_cons_self l ls))]
    exact ih (i + 1) (fun x hx => h x (List.mem_cons_of_mem _ hx))

/-- C10: a hunk whose first tagged line is an added line and whose header
strip-matches no line of the file cannot anchor: the fallback search has
an empty pre-image and reports not-found, so the whole Update fails and
the filesystem is unchanged. -/
theorem leading_added_hunk_fails (fs : FS) (p content : String) (hunk : Hunk)
    (t : String) (rest : List (Char × String))
    (hread : fs.read p = some content)
    (hfirst : hunk.lines = ('+', t) :: rest)
    (hheader : ∀ l ∈ pySplitLines content, pyStrip l ≠ pyStrip hunk.header) :
    apply_update fs p [hunk] = (fs, false) := by
  have hidx : find_header_idx (pySplitLines content) hunk.header = none :=
    find_header_loop_eq_none hunk.header (pySplitLines content) 0 hheader
  have hctx : context_lines_of hunk.lines = [] := by
    rw [hfirst]
    simp [context_lines_of]
  have hloc : find_hunk_location (pySplitLines content) hunk.lines = none := by
    simp [find_hunk_location, hctx]
  have happ : apply_hunk_to_lines (pySplitLines content) hunk = none := by
    simp [apply_hunk_to_lines, find_header_idx] at hidx ⊢
    simp [hidx, hloc]
  simp [apply_update, hread, apply_hunks, happ]

/-- Witness for C10. -/
theorem leading_added_hunk_fails_witness :
    apply_update { files := [("g", "x")], dirs := [] } "g"
        [{ header := "h", lines := [('+', "z")] }] =
      ({ files := [("g", "x")], dirs := [] }, false) :=
  leading_added_hunk_fails { files := [("g", "x")], dirs := [] } "g" "x"
    { header := "h", lines := [('+', "z")] } "z" [] (by decide) rfl (by decide)

/-- C6 (code bug): on the patch text
`"*** Begin Patch\n*** Update File: f\n@@ a\n@@ b\n*** End Patch"` — an
empty hunk directly followed by another `@@` header — `_parse_hunk` at
line index 2 returns `end_index = 1`, so the Update hunk loop of
`_parse_block` resumes at `end_index + 1 = 2`, exactly the index it is
at, with the `@@` guard still true: the Python loop re-parses the same
empty hunk forever and `apply_patch` never returns any outcome list for
this text, against the claim that every patch text yields one triple per
parsed block.  The third conjunct shows the fueled surrogate never
stabilizes there: one more unit of fuel (beyond the call-site fuel
`lines.length + 1 = 6`) appends one more copy of the empty hunk. -/
theorem parser_stall_eval :
    parse_hunk
        (pySplitLines "*** Begin Patch\n*** Update File: f\n@@ a\n@@ b\n*** End Patch") 2 =
      some ({ header := "a", lines := [] }, 1) ∧
    pyStartsWith
        ((pySplitLines "*** Begin Patch\n*** Update File: f\n@@ a\n@@ b\n*** End Patch").getD 2 "")
        "@@" = true ∧
    update_loop
        (pySplitLines "*** Begin Patch\n*** Update File: f\n@@ a\n@@ b\n*** End Patch") 6 2 ≠
      update_loop
        (pySplitLines "*** Begin Patch\n*** Update File: f\n@@ a\n@@ b\n*** End Patch") 7 2 := by
  refine ⟨by decide, by decide, by decide⟩
